import Mathlib

/-!
Verification of `src/azure-cli-core/azure/cli/core/auth/util.py` (azure-cli).

The Python module is a flat collection of stateless helpers translating
between ADAL resources and MSAL scopes, classifying MSAL results,
composing re-login commands, and encoding/decoding base64url claims.

Shallow embedding conventions:
* a Python `str` is a `List Char` of Unicode code points (`Str` below);
* Python `bytes` are `List Nat` with every element `< 256`;
* dictionaries are association lists where the first binding wins
  (Python dictionaries have unique keys, so this is faithful);
* fallible stdlib primitives (`base64.urlsafe_b64decode`, UTF-8
  `encode`/`decode`) are modelled as `Option`-returning functions that
  follow CPython semantics: `a2b_base64` in its default non-strict
  mode (characters outside the alphabet are skipped, a pad character
  closes a quad once at least two data characters are pending, a
  dangling quad is an error), and strict UTF-8 (overlong encodings,
  surrogates and out-of-range code points are rejected);
* functions that raise are modelled with `Except PyErr`.
-/

/-- A Python `str`, as its list of Unicode code points. -/
abbrev Str := List Char

/-- Values stored in the MSAL result dictionary handled by
`check_result`: either a string or a one-level string dictionary (the
only shapes the code path reads: `error_description` is a string and
`id_token_claims` is a dictionary of string claims). -/
inductive PyVal where
  | str (s : Str)
  | dict (entries : List (Str × Str))
deriving DecidableEq

/-- Python `d.get(k)` on a dictionary with `PyVal` values; also used for
the `k in d` test (`isSome`). First binding wins. -/
def dget (d : List (Str × PyVal)) (k : Str) : Option PyVal :=
  (d.find? (fun p => p.1 == k)).map (fun p => p.2)

/-- Python `d.get(k)` on a string-valued dictionary. -/
def dgetS (d : List (Str × Str)) (k : Str) : Option Str :=
  (d.find? (fun p => p.1 == k)).map (fun p => p.2)

/-- Exceptions raised by the embedded functions.  `authenticationError`
is azure.cli.core.azclierror.AuthenticationError with its message and
recommendation; the others stand for the builtin Python exceptions that
the module lets bubble up unmodified. -/
inductive PyErr where
  | authenticationError (msg : Option PyVal) (recommendation : Str)
  | keyError (key : Str)
  | attributeError
  | indexError
  | valueError
  | jsonDecodeError
deriving DecidableEq

/-- Value of a character for `binascii.a2b_base64`, with the urlsafe
translation ('-' to '+', '_' to '/') of `base64.urlsafe_b64decode`
folded in.  `none` for characters outside the alphabet (skipped by the
non-strict decoder) and for the pad character '='. -/
def b64Value (c : Char) : Option Nat :=
  if 65 ≤ c.toNat ∧ c.toNat ≤ 90 then some (c.toNat - 65)
  else if 97 ≤ c.toNat ∧ c.toNat ≤ 122 then some (c.toNat - 97 + 26)
  else if 48 ≤ c.toNat ∧ c.toNat ≤ 57 then some (c.toNat - 48 + 52)
  else if c = '+' ∨ c = '-' then some 62
  else if c = '/' ∨ c = '_' then some 63
  else none

/-- CPython `binascii.a2b_base64` (non-strict mode), one character at a
time.  State: remaining characters, position inside the current quad,
pending bits of the current quad, pad characters seen, bytes produced.
A pad at quad position at least 2 is counted and closes the stream once
the position plus the count reaches 4; a pad earlier in a quad and any
character outside the alphabet are skipped without touching the count;
every decoded data character resets the pad count to zero (`pads = 0`
in CPython's loop); a partially filled quad at the end of input is an
error (`Incorrect padding`). -/
def a2bLoop : List Char → Nat → Nat → Nat → List Nat → Option (List Nat)
  | [], quadPos, _, _, acc => if quadPos = 0 then some acc else none
  | c :: rest, quadPos, leftchar, pads, acc =>
    if c = '=' then
      if 2 ≤ quadPos then
        if 4 ≤ quadPos + (pads + 1) then some acc
        else a2bLoop rest quadPos leftchar (pads + 1) acc
      else a2bLoop rest quadPos leftchar pads acc
    else
      match b64Value c with
      | none => a2bLoop rest quadPos leftchar pads acc
      | some v =>
        if quadPos = 0 then a2bLoop rest 1 v 0 acc
        else if quadPos = 1 then a2bLoop rest 2 (v % 16) 0 (acc ++ [leftchar * 4 + v / 16])
        else if quadPos = 2 then a2bLoop rest 3 (v % 4) 0 (acc ++ [leftchar * 16 + v / 4])
        else a2bLoop rest 0 0 0 (acc ++ [leftchar * 64 + v])

/-- Python `base64.urlsafe_b64decode` applied to a `str` argument:
a non-ASCII string raises `ValueError` before decoding; otherwise the
characters are decoded by non-strict `a2b_base64` after the urlsafe
translation.  `none` models the raised `ValueError`/`binascii.Error`. -/
def urlsafe_b64decode (s : Str) : Option (List Nat) :=
  if s.all (fun c => c.toNat < 128) then a2bLoop s 0 0 0 [] else none

/-- Character of the urlsafe base64 alphabet for a 6-bit value. -/
def b64Char (n : Nat) : Char :=
  if n < 26 then Char.ofNat (65 + n)
  else if n < 52 then Char.ofNat (97 + (n - 26))
  else if n < 62 then Char.ofNat (48 + (n - 52))
  else if n = 62 then '-' else '_'

/-- Python `base64.urlsafe_b64encode` on bytes, with the resulting
ASCII bytes read back as a `str` (the module always follows the call
with `.decode()`). -/
def urlsafe_b64encode : List Nat → Str
  | [] => []
  | [a] => [b64Char (a / 4), b64Char (a % 4 * 16), '=', '=']
  | [a, b] => [b64Char (a / 4), b64Char (a % 4 * 16 + b / 16), b64Char (b % 16 * 4), '=']
  | a :: b :: c :: rest =>
    b64Char (a / 4) :: b64Char (a % 4 * 16 + b / 16) :: b64Char (b % 16 * 4 + c / 64) ::
      b64Char (c % 64) :: urlsafe_b64encode rest

/-- UTF-8 encoding of one code point (Python `str.encode()`), as the
list of its bytes. -/
def utf8EncodeChar (c : Char) : List Nat :=
  if c.toNat < 128 then [c.toNat]
  else if c.toNat < 2048 then [192 + c.toNat / 64, 128 + c.toNat % 64]
  else if c.toNat < 65536 then
    [224 + c.toNat / 4096, 128 + c.toNat / 64 % 64, 128 + c.toNat % 64]
  else
    [240 + c.toNat / 262144, 128 + c.toNat / 4096 % 64, 128 + c.toNat / 64 % 64,
      128 + c.toNat % 64]

/-- Python `str.encode()`: UTF-8 bytes of a string. -/
def utf8Encode (s : Str) : List Nat := (s.map utf8EncodeChar).flatten

/-- Continuation byte test for UTF-8 decoding. -/
def isCont (b : Nat) : Bool := decide (128 ≤ b ∧ b < 192)

/-- One step of strict UTF-8 decoding (Python `bytes.decode()`): read
one code point from the front of the byte list, or fail.  Rejects bad
lead bytes, missing or bad continuation bytes, overlong encodings,
surrogates and code points beyond U+10FFFF. -/
def utf8DecodeOne : List Nat → Option (Char × List Nat)
  | [] => none
  | b :: rest =>
    if b < 128 then some (Char.ofNat b, rest)
    else if b < 194 then none
    else if b < 224 then
      if rest.length < 1 ∨ isCont (rest.getD 0 0) = false then none
      else some (Char.ofNat ((b - 192) * 64 + (rest.getD 0 0 - 128)), rest.drop 1)
    else if b < 240 then
      if rest.length < 2 ∨ isCont (rest.getD 0 0) = false ∨ isCont (rest.getD 1 0) = false
        then none
      else
        let n := (b - 224) * 4096 + (rest.getD 0 0 - 128) * 64 + (rest.getD 1 0 - 128)
        if n < 2048 ∨ (55296 ≤ n ∧ n < 57344) then none
        else some (Char.ofNat n, rest.drop 2)
    else if b < 245 then
      if rest.length < 3 ∨ isCont (rest.getD 0 0) = false ∨ isCont (rest.getD 1 0) = false ∨
          isCont (rest.getD 2 0) = false then none
      else
        let n := (b - 240) * 262144 + (rest.getD 0 0 - 128) * 4096 +
          (rest.getD 1 0 - 128) * 64 + (rest.getD 2 0 - 128)
        if n < 65536 ∨ 1114112 ≤ n then none
        else some (Char.ofNat n, rest.drop 3)
    else none

/-- Iterate `utf8DecodeOne` to the end of the list.  The fuel is only a
structural-termination device: every step consumes at least one byte,
so fuel at least the list length never runs out. -/
def utf8DecodeLoop : Nat → List Nat → Option Str
  | _, [] => some []
  | 0, _ :: _ => none
  | fuel + 1, b :: rest =>
    match utf8DecodeOne (b :: rest) with
    | none => none
    | some (c, rest1) => (utf8DecodeLoop fuel rest1).map (fun s => c :: s)

/-- Python `bytes.decode()` (strict UTF-8) of a whole byte list.
`none` models the raised `UnicodeDecodeError`. -/
def utf8Decode (l : List Nat) : Option Str := utf8DecodeLoop l.length l

/-- Embeds `encode_claims` (util.py lines 127-138): if the input
base64url-decodes without error it is returned unchanged, otherwise its
UTF-8 bytes are base64url-encoded. -/
def encode_claims (claims : Str) : Str :=
  match urlsafe_b64decode claims with
  | some _ => claims
  | none => urlsafe_b64encode (utf8Encode claims)

/-- Embeds `decode_claims` (util.py lines 141-148): base64url-decode
then UTF-8-decode; on any `ValueError` (which includes both decode
failures) the input is returned unchanged. -/
def decode_claims (claims : Str) : Str :=
  match urlsafe_b64decode claims with
  | none => claims
  | some bs =>
    match utf8Decode bs with
    | none => claims
    | some s => s

/-- Truthiness of an optional Python string (`if claims:`):
`None` and the empty string are falsy. -/
def truthyOptStr (c : Option Str) : Bool :=
  match c with
  | none => false
  | some s => !s.isEmpty

/-- Truthiness of an optional Python list (`elif scopes:`):
`None` and the empty list are falsy. -/
def truthyOptList (s : Option (List Str)) : Bool :=
  match s with
  | none => false
  | some l => !l.isEmpty

/-- Embeds `_generate_login_command` (util.py lines 18-30).  The
`format` calls and the final `' '.join(login_command)` are written out
as the concatenations they produce. -/
def generate_login_command (scopes : Option (List Str)) (claims : Option Str) : Str :=
  if truthyOptStr claims then
    ("az logout\n".data) ++
      List.intercalate (" ".data)
        [("az login".data), ("--claims ".data) ++ encode_claims (claims.getD [])]
  else if truthyOptList scopes then
    List.intercalate (" ".data)
      [("az login".data), ("--scope ".data) ++ List.intercalate (" ".data) (scopes.getD [])]
  else
    List.intercalate (" ".data) [("az login".data)]

/-- Embeds `_generate_login_message` (util.py lines 33-41).  The
external `in_cloud_console()` probe is passed in as a boolean. -/
def generate_login_message (scopes : Option (List Str)) (claims : Option Str)
    (inCloudConsole : Bool) : Str :=
  ("To re-authenticate, please ".data) ++
    (if inCloudConsole then ("refresh Azure Portal.".data)
     else ("run:\n".data) ++ generate_login_command scopes claims) ++
  ("\n\n".data) ++
  ("If the problem persists, please contact your tenant administrator.".data)

/-- Message of the AuthenticationError raised when no result is found
(the source text contains an apostrophe, spliced in as code point 39). -/
def noTokenMsg : Str :=
  ("Can".data) ++ [Char.ofNat 39] ++ ("t find token from MSAL cache.".data)

/-- Embeds `aad_error_handler` (util.py lines 6-15): always raises an
AuthenticationError whose message is `error.get('error_description')`
and whose recommendation is the login message; the returned value is
the exception raised. -/
def aad_error_handler (error : List (Str × PyVal)) (scopes : Option (List Str))
    (claims : Option Str) (inCloudConsole : Bool) : PyErr :=
  .authenticationError (dget error ("error_description".data))
    (generate_login_message scopes claims inCloudConsole)

/-- Normalized user identity returned by `check_result`. -/
structure UserInfo where
  username : Str
  tenantId : Str
deriving DecidableEq

/-- Truthiness of `result` (`if not result:`): absent (`None`) or an
empty dictionary. -/
def resultTruthy (result : Option (List (Str × PyVal))) : Bool :=
  match result with
  | none => false
  | some d => !d.isEmpty

/-- Embeds `check_result` (util.py lines 87-105).  The kwargs forwarded
to the error handler are the optional `scopes`/`claims` plus the
external cloud-console probe.  `idt.get("preferred_username") or
idt["upn"]` is modelled with Python `or` semantics: the `get` value is
used only when it is truthy (present and non-empty), otherwise
`idt["upn"]` is evaluated, raising `KeyError` when absent. -/
def check_result (result : Option (List (Str × PyVal))) (scopes : Option (List Str))
    (claims : Option Str) (inCloudConsole : Bool) : Except PyErr (Option UserInfo) :=
  if resultTruthy result = false then
    .error (.authenticationError (some (.str noTokenMsg))
      ("To re-authenticate, please run:\naz login".data))
  else
    let d := result.getD []
    if (dget d ("error".data)).isSome then
      .error (aad_error_handler d scopes claims inCloudConsole)
    else
      match dget d ("id_token_claims".data) with
      | some (.dict idt) =>
        match
          (match dgetS idt ("preferred_username".data) with
           | some v => if v.isEmpty then dgetS idt ("upn".data) else some v
           | none => dgetS idt ("upn".data)) with
        | none => .error (.keyError ("upn".data))
        | some username =>
          match dgetS idt ("tid".data) with
          | none => .error (.keyError ("tid".data))
          | some tid => .ok (some ⟨username, tid⟩)
      | some (.str _) => .error .attributeError
      | none => .ok none

/-- Embeds `resource_to_scopes` (util.py lines 44-57): append the
literal `/.default` with no normalization and wrap in a list. -/
def resource_to_scopes (resource : Str) : List Str :=
  [resource ++ ("/.default".data)]

/-- Python `scope.endswith(s)`. -/
def pyEndswith (s sfx : Str) : Bool := sfx.isSuffixOf s

/-- The suffix loop of `scopes_to_resource`: return `scope[:-len(s)]`
for the first suffix `s` that matches, the scope unchanged otherwise.
All suffixes tried by the source are non-empty, so the Python slice
`scope[:-len(s)]` is `take (scope.length - s.length)`. -/
def stripFirstSuffix : List Str → Str → Str
  | [], scope => scope
  | sfx :: rest, scope =>
    if pyEndswith scope sfx then scope.take (scope.length - sfx.length)
    else stripFirstSuffix rest scope

/-- Embeds `scopes_to_resource` (util.py lines 60-78): only the first
scope is inspected; `none` models the IndexError on an empty list. -/
def scopes_to_resource (scopes : List Str) : Option Str :=
  match scopes with
  | [] => none
  | scope :: _ =>
    some (stripFirstSuffix [("/.default".data), ("/user_impersonation".data)] scope)

/-- Python `(-n) % 4`: characters of padding needed to reach the next
multiple of 4. -/
def paddingNeeded (n : Nat) : Nat := (4 - n % 4) % 4

/-- One parsed challenge of a `WWW-Authenticate` header, as produced by
the external `azure.mgmt.core.policies._authentication._parse_challenges`
collaborator (RFC 7235 auth-param style: a scheme and parameters). -/
structure Challenge where
  scheme : Str
  parameters : List (Str × Str)

/-- Embeds `_extract_claims` (util.py lines 163-173) on the output of
the external challenge parser: `None` unless exactly one challenge is
present and carries a `claims` parameter; otherwise that parameter
right-padded with `=` to a multiple of 4. -/
def extract_claims (parsedChallenges : List Challenge) : Option Str :=
  match parsedChallenges with
  | [ch] =>
    match dgetS ch.parameters ("claims".data) with
    | some v => some (v ++ List.replicate (paddingNeeded v.length) '=')
    | none => none
  | _ => none

/-- Embeds `handle_response_401_track1` (util.py lines 151-160) from
the parsed `WWW-Authenticate` header onwards; the `format` call is the
concatenation it produces. -/
def handle_response_401_track1 (parsedChallenges : List Challenge)
    (inCloudConsole : Bool) : Str :=
  ("The access token has expired or been revoked by Continuous Access Evaluation. ".data) ++
  ("Silent re-authentication will be attempted in the future.\n".data) ++
  generate_login_message none (extract_claims parsedChallenges) inCloudConsole

/-- Embeds `msal.oauth2cli.oidc.decode_part` (external collaborator of
`decode_access_token`): pad with `=` to a multiple of 4, base64url
decode, UTF-8 decode. -/
def decode_part (raw : Str) : Option Str :=
  match urlsafe_b64decode (raw ++ List.replicate (paddingNeeded raw.length) '=') with
  | none => none
  | some bs => utf8Decode bs

/-- Python `access_token.split('.')` (splits on every dot, keeping
empty segments, so the result is never empty). -/
def pySplitDot (s : Str) : List Str := List.splitOn '.' s

/-- Embeds `decode_access_token` (util.py lines 117-124).  The external
`json.loads` is abstracted as a caller-supplied partial parser; `none`
from it models the raised JSONDecodeError, and `[1]?` on the split
models the IndexError of `split('.')[1]`. -/
def decode_access_token {J : Type} (jsonLoads : Str → Option J)
    (access_token : Str) : Except PyErr J :=
  match (pySplitDot access_token)[1]? with
  | none => .error .indexError
  | some seg =>
    match decode_part seg with
    | none => .error .valueError
    | some decoded_str =>
      match jsonLoads decoded_str with
      | none => .error .jsonDecodeError
      | some j => .ok j

/-- Appending a suffix makes `endswith` true. -/
theorem pyEndswith_append (r sfx : Str) : pyEndswith (r ++ sfx) sfx = true := by
  unfold pyEndswith
  rw [List.isSuffixOf_iff_suffix]
  exact List.suffix_append r sfx

/-- `endswith` agrees with the existence of a split `s = r ++ sfx`. -/
theorem pyEndswith_iff (s sfx : Str) : pyEndswith s sfx = true ↔ ∃ r, s = r ++ sfx := by
  unfold pyEndswith
  rw [List.isSuffixOf_iff_suffix]
  constructor
  · rintro ⟨t, ht⟩
    exact ⟨t, ht.symm⟩
  · rintro ⟨r, hr⟩
    exact ⟨r, hr.symm⟩

/-- Stripping the trailing copy of an appended suffix recovers the
original string. -/
theorem take_append_sub (r d : Str) :
    (r ++ d).take ((r ++ d).length - d.length) = r := by
  rw [List.length_append, Nat.add_sub_cancel, List.take_left]

/-- C1: for every resource string `r` (including strings ending in a
slash), `scopes_to_resource (resource_to_scopes r)` returns `r`
unchanged: appending `/.default` and then stripping it round-trips. -/
theorem roundtrip_resource_scopes (r : Str) :
    scopes_to_resource (resource_to_scopes r) = some r := by
  have h := pyEndswith_append r ("/.default".data)
  simp only [resource_to_scopes, scopes_to_resource, stripFirstSuffix, h, if_true]
  rw [take_append_sub]

/-- C5: `scopes_to_resource` inspects only the first scope; it strips a
trailing `/.default`, failing that a trailing `/user_impersonation`,
and otherwise returns the first scope unchanged; on the documented
example the double slash before `/.default` is preserved.  The
`pyEndswith` tests used as guards coincide with the existence of a
split of the scope at the suffix. -/
theorem scopes_to_resource_spec (s : Str) (rest : List Str) :
    scopes_to_resource (s :: rest) = scopes_to_resource [s] ∧
    (∀ r, s = r ++ ("/.default".data) → scopes_to_resource (s :: rest) = some r) ∧
    (pyEndswith s ("/.default".data) = false →
      ∀ r, s = r ++ ("/user_impersonation".data) →
        scopes_to_resource (s :: rest) = some r) ∧
    (pyEndswith s ("/.default".data) = false →
      pyEndswith s ("/user_impersonation".data) = false →
      scopes_to_resource (s :: rest) = some s) ∧
    (∀ sfx, pyEndswith s sfx = true ↔ ∃ r, s = r ++ sfx) ∧
    scopes_to_resource [("https://management.core.windows.net//.default".data)] =
      some ("https://management.core.windows.net/".data) := by
  refine ⟨rfl, ?_, ?_, ?_, fun sfx => pyEndswith_iff s sfx, by decide⟩
  · rintro r rfl
    have h := pyEndswith_append r ("/.default".data)
    simp only [scopes_to_resource, stripFirstSuffix, h, if_true]
    rw [take_append_sub]
  · rintro hd r rfl
    have h := pyEndswith_append r ("/user_impersonation".data)
    simp only [scopes_to_resource, stripFirstSuffix, hd, h, if_true, Bool.false_eq_true,
      if_false]
    rw [take_append_sub]
  · intro hd hu
    simp only [scopes_to_resource, stripFirstSuffix, hd, hu, Bool.false_eq_true, if_false]

/-- C5 witness: the theorem applied to concrete scope lists, one per
suffix branch. -/
theorem scopes_to_resource_spec_witness :
    scopes_to_resource [("https://managedhsm.azure.com/.default".data)] =
      some ("https://managedhsm.azure.com".data) ∧
    scopes_to_resource [("https://x/user_impersonation".data), ("other".data)] =
      some ("https://x".data) := by
  constructor
  · exact (scopes_to_resource_spec ("https://managedhsm.azure.com/.default".data) []).2.1
      ("https://managedhsm.azure.com".data) (by decide)
  · exact (scopes_to_resource_spec ("https://x/user_impersonation".data)
      [("other".data)]).2.2.1 (by decide) ("https://x".data) (by decide)

/-- C4: the login command composer has exactly three branches: a
non-empty claims argument yields the two-line logout/login command with
the claims run through `encode_claims` (any scopes argument ignored);
otherwise non-empty scopes yield `az login --scope` with the scopes
joined by spaces; otherwise the bare `az login`. -/
theorem generate_login_command_spec (scopes : Option (List Str)) (claims : Option Str) :
    (∀ c, claims = some c → c ≠ [] →
      generate_login_command scopes claims =
        ("az logout\naz login --claims ".data) ++ encode_claims c) ∧
    ((claims = none ∨ claims = some []) → ∀ l, scopes = some l → l ≠ [] →
      generate_login_command scopes claims =
        ("az login --scope ".data) ++ List.intercalate (" ".data) l) ∧
    ((claims = none ∨ claims = some []) → (scopes = none ∨ scopes = some []) →
      generate_login_command scopes claims = ("az login".data)) := by
  refine ⟨?_, ?_, ?_⟩
  · rintro c rfl hne
    have hc : c.isEmpty = false := by simpa using hne
    simp only [generate_login_command, truthyOptStr, hc, Bool.not_false, if_true,
      Option.getD_some]
    simp only [List.intercalate, List.intersperse, List.flatten, List.append_nil,
      ← List.append_assoc]
    congr 1
  · rintro hc l rfl hne
    have hcl : truthyOptStr claims = false := by
      rcases hc with rfl | rfl <;> simp [truthyOptStr]
    have hl : l.isEmpty = false := by simpa using hne
    simp only [generate_login_command, hcl, Bool.false_eq_true, if_false, truthyOptList,
      hl, Bool.not_false, if_true, Option.getD_some]
    simp only [List.intercalate, List.intersperse, List.flatten, List.append_nil,
      ← List.append_assoc]
    congr 1
  · intro hc hs
    have hcl : truthyOptStr claims = false := by
      rcases hc with rfl | rfl <;> simp [truthyOptStr]
    have hsl : truthyOptList scopes = false := by
      rcases hs with rfl | rfl <;> simp [truthyOptList]
    simp only [generate_login_command, hcl, hsl, Bool.false_eq_true, if_false]
    simp [List.intercalate]

/-- C4 witness: the theorem applied to the three documented examples. -/
theorem generate_login_command_spec_witness :
    generate_login_command none (some ("abc".data)) =
      ("az logout\naz login --claims ".data) ++ encode_claims ("abc".data) ∧
    generate_login_command (some [("s1".data), ("s2".data)]) none =
      ("az login --scope ".data) ++
        List.intercalate (" ".data) [("s1".data), ("s2".data)] ∧
    generate_login_command none none = ("az login".data) := by
  refine ⟨?_, ?_, ?_⟩
  · exact (generate_login_command_spec none (some ("abc".data))).1 ("abc".data) rfl
      (by decide)
  · exact (generate_login_command_spec (some [("s1".data), ("s2".data)]) none).2.1
      (Or.inl rfl) [("s1".data), ("s2".data)] rfl (by decide)
  · exact (generate_login_command_spec none none).2.2 (Or.inl rfl) (Or.inl rfl)

/-- C7: the claims-challenge extractor returns `none` unless the parsed
header holds exactly one challenge carrying a `claims` parameter; when
it does, the parameter value is right-padded with `=` to the next
multiple of 4, and no padding is added when the length is already a
multiple of 4. -/
theorem extract_claims_spec (parsedChallenges : List Challenge) :
    (parsedChallenges.length ≠ 1 → extract_claims parsedChallenges = none) ∧
    (∀ ch, parsedChallenges = [ch] → dgetS ch.parameters ("claims".data) = none →
      extract_claims parsedChallenges = none) ∧
    (∀ ch v, parsedChallenges = [ch] →
      dgetS ch.parameters ("claims".data) = some v →
      extract_claims parsedChallenges =
        some (v ++ List.replicate ((4 - v.length % 4) % 4) '=') ∧
      (v.length + paddingNeeded v.length) % 4 = 0 ∧
      paddingNeeded v.length < 4 ∧
      (v.length % 4 = 0 →
        extract_claims parsedChallenges = some v)) := by
  refine ⟨?_, ?_, ?_⟩
  · intro hlen
    match parsedChallenges, hlen with
    | [], _ => rfl
    | a :: b :: rest, _ => rfl
    | [ch], h => exact absurd rfl h
  · rintro ch rfl hnone
    simp only [extract_claims, hnone]
  · rintro ch v rfl hsome
    refine ⟨by simp only [extract_claims, hsome, paddingNeeded], ?_, ?_, ?_⟩
    · simp only [paddingNeeded]
      omega
    · simp only [paddingNeeded]
      omega
    · intro h4
      have : paddingNeeded v.length = 0 := by
        simp only [paddingNeeded]
        omega
      simp only [extract_claims, hsome, this, List.replicate_zero, List.append_nil]

/-- C7 witness: the theorem applied to concrete parsed headers: no
challenge, two challenges, one challenge without claims, and one
challenge whose claims value has length 2 (two pads added). -/
theorem extract_claims_spec_witness :
    extract_claims [] = none ∧
    extract_claims [⟨("Bearer".data), []⟩, ⟨("PoP".data), []⟩] = none ∧
    extract_claims [⟨("Bearer".data), [(("realm".data), ("x".data))]⟩] = none ∧
    extract_claims [⟨("Bearer".data), [(("claims".data), ("eY".data))]⟩] =
      some (("eY".data) ++ List.replicate ((4 - ("eY".data).length % 4) % 4) '=') := by
  refine ⟨?_, ?_, ?_, ?_⟩
  · exact (extract_claims_spec []).1 (by decide)
  · exact (extract_claims_spec [⟨("Bearer".data), []⟩, ⟨("PoP".data), []⟩]).1 (by decide)
  · exact (extract_claims_spec [⟨("Bearer".data), [(("realm".data), ("x".data))]⟩]).2.1
      ⟨("Bearer".data), [(("realm".data), ("x".data))]⟩ rfl (by decide)
  · exact ((extract_claims_spec [⟨("Bearer".data), [(("claims".data), ("eY".data))]⟩]).2.2
      ⟨("Bearer".data), [(("claims".data), ("eY".data))]⟩ ("eY".data) rfl (by decide)).1

/-- C10: when the challenge extractor yields `none`, the 401 handler
still returns the fixed recommendation string, and the embedded login
command degrades to the bare `az login` (no `--claims`, no `az
logout`); inside the cloud console the message asks for a portal
refresh instead of a command. -/
theorem handle_response_401_no_claims (parsedChallenges : List Challenge)
    (inCloudConsole : Bool) (h : extract_claims parsedChallenges = none) :
    handle_response_401_track1 parsedChallenges inCloudConsole =
      if inCloudConsole then
        (("The access token has expired or been revoked by Continuous Access Evaluation. " ++
          "Silent re-authentication will be attempted in the future.\n" ++
          "To re-authenticate, please refresh Azure Portal.\n\n" ++
          "If the problem persists, please contact your tenant administrator.").data)
      else
        (("The access token has expired or been revoked by Continuous Access Evaluation. " ++
          "Silent re-authentication will be attempted in the future.\n" ++
          "To re-authenticate, please run:\naz login\n\n" ++
          "If the problem persists, please contact your tenant administrator.").data) := by
  simp only [handle_response_401_track1, h]
  cases inCloudConsole <;> rfl

/-- C10 witness: the theorem applied to an empty challenge list outside
the cloud console. -/
theorem handle_response_401_no_claims_witness :
    handle_response_401_track1 [] false =
      (("The access token has expired or been revoked by Continuous Access Evaluation. " ++
        "Silent re-authentication will be attempted in the future.\n" ++
        "To re-authenticate, please run:\naz login\n\n" ++
        "If the problem persists, please contact your tenant administrator.").data) :=
  handle_response_401_no_claims [] false rfl

/-- A non-empty dictionary is truthy. -/
theorem resultTruthy_some (d : List (Str × PyVal)) (hne : d ≠ []) :
    resultTruthy (some d) = true := by
  cases d with
  | nil => exact absurd rfl hne
  | cons p ds => rfl

/-- Reduction of `check_result` on a non-empty, error-free result whose
`id_token_claims` entry is a dictionary. -/
theorem check_result_dict_eq (d : List (Str × PyVal)) (idt : List (Str × Str))
    (scopes : Option (List Str)) (claims : Option Str) (incc : Bool)
    (hne : d ≠ []) (herr : dget d ("error".data) = none)
    (hidt : dget d ("id_token_claims".data) = some (.dict idt)) :
    check_result (some d) scopes claims incc =
      match
        (match dgetS idt ("preferred_username".data) with
         | some v => if v.isEmpty then dgetS idt ("upn".data) else some v
         | none => dgetS idt ("upn".data)) with
      | none => .error (.keyError ("upn".data))
      | some username =>
        match dgetS idt ("tid".data) with
        | none => .error (.keyError ("tid".data))
        | some tid => .ok (some ⟨username, tid⟩) := by
  simp only [check_result, resultTruthy_some d hne, Bool.true_eq_false, if_false,
    Option.getD_some, herr, Option.isSome_none, Bool.false_eq_true, hidt]

/-- C2: `check_result` raises AuthenticationError exactly when the
result is empty/absent (direct raise, with the fixed no-token message)
or carries an `error` key (delegated to `aad_error_handler`, whose
exception message is the `error_description` value); `aad_error_handler`
always produces an AuthenticationError; a non-empty result without an
`error` key never produces one (only KeyError/AttributeError/ok). -/
theorem check_result_error_spec (result : Option (List (Str × PyVal)))
    (scopes : Option (List Str)) (claims : Option Str) (incc : Bool) :
    ((result = none ∨ result = some []) →
      check_result result scopes claims incc =
        .error (.authenticationError (some (.str noTokenMsg))
          ("To re-authenticate, please run:\naz login".data))) ∧
    (∀ d, result = some d → d ≠ [] → (dget d ("error".data)).isSome = true →
      check_result result scopes claims incc =
        .error (.authenticationError (dget d ("error_description".data))
          (generate_login_message scopes claims incc))) ∧
    (∀ d, aad_error_handler d scopes claims incc =
      .authenticationError (dget d ("error_description".data))
        (generate_login_message scopes claims incc)) ∧
    (∀ d, result = some d → d ≠ [] → dget d ("error".data) = none →
      ∀ m rc, check_result result scopes claims incc ≠
        .error (.authenticationError m rc)) := by
  refine ⟨?_, ?_, fun d => rfl, ?_⟩
  · rintro (rfl | rfl) <;> rfl
  · rintro d rfl hne hmem
    simp only [check_result, resultTruthy_some d hne, Bool.true_eq_false, if_false,
      Option.getD_some, hmem, if_true]
    rfl
  · rintro d rfl hne hnomem m rc heq
    simp only [check_result, resultTruthy_some d hne, Bool.true_eq_false, if_false,
      Option.getD_some, hnomem, Option.isSome_none, Bool.false_eq_true] at heq
    split at heq
    all_goals try split at heq
    all_goals try split at heq
    all_goals simp_all

/-- C2 witness: the theorem applied to an absent result, a result
carrying an `error` key, and an error-free result. -/
theorem check_result_error_spec_witness :
    check_result none none none false =
      .error (.authenticationError (some (.str noTokenMsg))
        ("To re-authenticate, please run:\naz login".data)) ∧
    check_result (some [(("error".data), .str ("interaction_required".data)),
        (("error_description".data), .str ("bad".data))]) none none false =
      .error (.authenticationError
        (dget [(("error".data), .str ("interaction_required".data)),
          (("error_description".data), .str ("bad".data))] ("error_description".data))
        (generate_login_message none none false)) ∧
    check_result (some [(("token_type".data), .str ("Bearer".data))]) none none false ≠
      .error (.authenticationError none []) := by
  refine ⟨?_, ?_, ?_⟩
  · exact (check_result_error_spec none none none false).1 (Or.inl rfl)
  · exact (check_result_error_spec _ none none false).2.1 _ rfl (by decide) (by decide)
  · exact (check_result_error_spec _ none none false).2.2.2 _ rfl (by decide)
      (by decide) none []

/-- C3 counterexample: on a result whose `id_token_claims` contains a
present-but-empty `preferred_username` next to `upn`, the code falls
back to `upn` (Python `or` tests truthiness, not key presence), so the
username is not the value of the present `preferred_username` key as
the claim states. -/
theorem check_result_preferred_username_cex :
    check_result (some [(("id_token_claims".data),
        PyVal.dict [(("preferred_username".data), ([] : Str)),
          (("upn".data), ("u@x.com".data)), (("tid".data), ("t1".data))])])
      none none false = .ok (some ⟨("u@x.com".data), ("t1".data)⟩) ∧
    ("u@x.com".data) ≠ ([] : Str) ∧
    check_result (some [(("id_token_claims".data),
        PyVal.dict [(("preferred_username".data), ([] : Str)),
          (("upn".data), ("u@x.com".data)), (("tid".data), ("t1".data))])])
      none none false ≠ .ok (some ⟨([] : Str), ("t1".data)⟩) := by
  refine ⟨rfl, by decide, ?_⟩
  intro h
  injection h with h1
  injection h1 with h2
  injection h2 with h3 h4
  cases h3

/-- C3 (amended): for an error-free non-empty result whose
`id_token_claims` is a dictionary, the username is the value of
`preferred_username` when that key is present with a truthy (non-empty)
value, and the value of `upn` otherwise (first truthy wins); a KeyError
on `upn` is raised when `preferred_username` is absent or empty and
`upn` is absent; the tenantId is the value of `tid`, with a KeyError
when `tid` is absent; without `id_token_claims` the function returns
null. -/
theorem check_result_id_token_spec (result : Option (List (Str × PyVal)))
    (scopes : Option (List Str)) (claims : Option Str) (incc : Bool)
    (d : List (Str × PyVal)) (hres : result = some d) (hne : d ≠ [])
    (herr : dget d ("error".data) = none) :
    (∀ idt, dget d ("id_token_claims".data) = some (.dict idt) →
      (∀ v, dgetS idt ("preferred_username".data) = some v → v ≠ [] →
        ((∀ t, dgetS idt ("tid".data) = some t →
          check_result result scopes claims incc = .ok (some ⟨v, t⟩)) ∧
         (dgetS idt ("tid".data) = none →
          check_result result scopes claims incc = .error (.keyError ("tid".data))))) ∧
      ((dgetS idt ("preferred_username".data) = none ∨
        dgetS idt ("preferred_username".data) = some []) →
        ((∀ u, dgetS idt ("upn".data) = some u →
          ((∀ t, dgetS idt ("tid".data) = some t →
            check_result result scopes claims incc = .ok (some ⟨u, t⟩)) ∧
           (dgetS idt ("tid".data) = none →
            check_result result scopes claims incc = .error (.keyError ("tid".data))))) ∧
         (dgetS idt ("upn".data) = none →
          check_result result scopes claims incc = .error (.keyError ("upn".data)))))) ∧
    (dget d ("id_token_claims".data) = none →
      check_result result scopes claims incc = .ok none) := by
  subst hres
  refine ⟨?_, ?_⟩
  · intro idt hidt
    have hb := check_result_dict_eq d idt scopes claims incc hne herr hidt
    refine ⟨?_, ?_⟩
    · intro v hv hvne
      have hve : v.isEmpty = false := by simpa using hvne
      constructor
      · intro t ht
        rw [hb]
        simp only [hv, hve, Bool.false_eq_true, if_false, ht]
      · intro ht
        rw [hb]
        simp only [hv, hve, Bool.false_eq_true, if_false, ht]
    · intro hpu
      refine ⟨?_, ?_⟩
      · intro u hu
        constructor
        · intro t ht
          rw [hb]
          rcases hpu with h | h <;>
            simp only [h, hu, ht, List.isEmpty_nil, if_true]
        · intro ht
          rw [hb]
          rcases hpu with h | h <;>
            simp only [h, hu, ht, List.isEmpty_nil, if_true]
      · intro hu
        rw [hb]
        rcases hpu with h | h <;>
          simp only [h, hu, List.isEmpty_nil, if_true]
  · intro hnone
    simp only [check_result, resultTruthy_some d hne, Bool.true_eq_false, if_false,
      Option.getD_some, herr, Option.isSome_none, Bool.false_eq_true, hnone]

/-- C3 witness: the amended theorem applied to the documented example
(an ADFS result carrying `upn` and `tid` and no `preferred_username`)
and to a result missing `tid`. -/
theorem check_result_id_token_spec_witness :
    check_result (some [(("id_token_claims".data),
        PyVal.dict [(("upn".data), ("u@x.com".data)), (("tid".data), ("t1".data))])])
      none none false = .ok (some ⟨("u@x.com".data), ("t1".data)⟩) ∧
    check_result (some [(("id_token_claims".data),
        PyVal.dict [(("preferred_username".data), ("alice".data))])])
      none none false = .error (.keyError ("tid".data)) := by
  constructor
  · exact ((((check_result_id_token_spec _ none none false _ rfl (by decide)
      (by decide)).1 [(("upn".data), ("u@x.com".data)), (("tid".data), ("t1".data))]
      (by decide)).2 (Or.inl (by decide))).1 ("u@x.com".data)
      (by decide)).1 ("t1".data) (by decide)
  · exact (((check_result_id_token_spec _ none none false _ rfl (by decide)
      (by decide)).1 [(("preferred_username".data), ("alice".data))]
      (by decide)).1 ("alice".data) (by decide) (by decide)).2
      (by decide)

/-- C8: `decode_access_token` splits the token on dots and decodes the
second segment: with fewer than two segments it fails with the generic
IndexError; when the decoded second segment is rejected by the
structured parser it fails with the generic parse error; on success it
returns the parsed value; every error it produces is one of the generic
IndexError/ValueError/JSONDecodeError, never a classified
AuthenticationError. -/
theorem decode_access_token_spec {J : Type} (jsonLoads : Str → Option J)
    (access_token : Str) :
    ((pySplitDot access_token).length < 2 →
      decode_access_token jsonLoads access_token = .error .indexError) ∧
    (∀ seg, (pySplitDot access_token)[1]? = some seg →
      (decode_part seg = none →
        decode_access_token jsonLoads access_token = .error .valueError) ∧
      (∀ s, decode_part seg = some s → jsonLoads s = none →
        decode_access_token jsonLoads access_token = .error .jsonDecodeError) ∧
      (∀ s j, decode_part seg = some s → jsonLoads s = some j →
        decode_access_token jsonLoads access_token = .ok j)) ∧
    (∀ e, decode_access_token jsonLoads access_token = .error e →
      e = .indexError ∨ e = .valueError ∨ e = .jsonDecodeError) := by
  refine ⟨?_, ?_, ?_⟩
  · intro hlen
    have h1 : (pySplitDot access_token)[1]? = none := List.getElem?_eq_none (by omega)
    simp only [decode_access_token, h1]
  · intro seg hseg
    refine ⟨?_, ?_, ?_⟩
    · intro hdp
      simp only [decode_access_token, hseg, hdp]
    · intro s hdp hj
      simp only [decode_access_token, hseg, hdp, hj]
    · intro s j hdp hj
      simp only [decode_access_token, hseg, hdp, hj]
  · intro e heq
    unfold decode_access_token at heq
    split at heq
    · injection heq with h
      exact Or.inl h.symm
    · split at heq
      · injection heq with h
        exact Or.inr (Or.inl h.symm)
      · split at heq
        · injection heq with h
          exact Or.inr (Or.inr h.symm)
        · cases heq

/-- C8 witness: the theorem applied to a token without a dot, to a
token whose decoded body is rejected by the parser, and to a token
accepted by it. -/
theorem decode_access_token_spec_witness :
    decode_access_token (fun _ => (none : Option Unit)) ("headeronly".data) =
      .error .indexError ∧
    decode_access_token (fun _ => (none : Option Unit)) ("h.YWJj".data) =
      .error .jsonDecodeError ∧
    decode_access_token (fun s => (some s : Option Str)) ("h.YWJj".data) =
      .ok ("abc".data) := by
  refine ⟨?_, ?_, ?_⟩
  · exact (decode_access_token_spec (fun _ => (none : Option Unit))
      ("headeronly".data)).1 (by decide)
  · exact ((decode_access_token_spec (fun _ => (none : Option Unit))
      ("h.YWJj".data)).2.1 ("YWJj".data) (by decide)).2.1 ("abc".data) (by decide) rfl
  · exact ((decode_access_token_spec (fun s => (some s : Option Str))
      ("h.YWJj".data)).2.1 ("YWJj".data) (by decide)).2.2 ("abc".data) ("abc".data)
      (by decide) rfl

/-- The urlsafe alphabet decodes back to the 6-bit value, is never the
pad character, and is ASCII. -/
theorem b64Char_spec : ∀ v : Nat, v < 64 →
    b64Value (b64Char v) = some v ∧ ¬b64Char v = '=' ∧ (b64Char v).toNat < 128 := by
  decide

/-- `a2b_base64` on an alphabet character at quad position 0. -/
theorem a2bLoop_data0 (v : Nat) (hv : v < 64) (cs : List Char) (left pads : Nat)
    (acc : List Nat) :
    a2bLoop (b64Char v :: cs) 0 left pads acc = a2bLoop cs 1 v 0 acc := by
  have h := b64Char_spec v hv
  simp only [a2bLoop, if_neg h.2.1, h.1]
  norm_num

/-- `a2b_base64` on an alphabet character at quad position 1. -/
theorem a2bLoop_data1 (v : Nat) (hv : v < 64) (cs : List Char) (left pads : Nat)
    (acc : List Nat) :
    a2bLoop (b64Char v :: cs) 1 left pads acc =
      a2bLoop cs 2 (v % 16) 0 (acc ++ [left * 4 + v / 16]) := by
  have h := b64Char_spec v hv
  simp only [a2bLoop, if_neg h.2.1, h.1]
  norm_num

/-- `a2b_base64` on an alphabet character at quad position 2. -/
theorem a2bLoop_data2 (v : Nat) (hv : v < 64) (cs : List Char) (left pads : Nat)
    (acc : List Nat) :
    a2bLoop (b64Char v :: cs) 2 left pads acc =
      a2bLoop cs 3 (v % 4) 0 (acc ++ [left * 16 + v / 4]) := by
  have h := b64Char_spec v hv
  simp only [a2bLoop, if_neg h.2.1, h.1]
  norm_num

/-- `a2b_base64` on an alphabet character at quad position 3. -/
theorem a2bLoop_data3 (v : Nat) (hv : v < 64) (cs : List Char) (left pads : Nat)
    (acc : List Nat) :
    a2bLoop (b64Char v :: cs) 3 left pads acc =
      a2bLoop cs 0 0 0 (acc ++ [left * 64 + v]) := by
  have h := b64Char_spec v hv
  simp only [a2bLoop, if_neg h.2.1, h.1]
  norm_num

/-- A first pad at quad position 2 is recorded and decoding goes on. -/
theorem a2bLoop_pad2a (cs : List Char) (left : Nat) (acc : List Nat) :
    a2bLoop ('=' :: cs) 2 left 0 acc = a2bLoop cs 2 left 1 acc := by
  simp [a2bLoop]

/-- A second pad at quad position 2 ends decoding successfully. -/
theorem a2bLoop_pad2b (cs : List Char) (left : Nat) (acc : List Nat) :
    a2bLoop ('=' :: cs) 2 left 1 acc = some acc := by
  simp [a2bLoop]

/-- A pad at quad position 3 ends decoding successfully. -/
theorem a2bLoop_pad3 (cs : List Char) (left : Nat) (acc : List Nat) :
    a2bLoop ('=' :: cs) 3 left 0 acc = some acc := by
  simp [a2bLoop]

/-- Decoding the base64 encoding of a byte list recovers the bytes. -/
theorem a2bLoop_encode : ∀ (bs : List Nat), (∀ x ∈ bs, x < 256) → ∀ (acc : List Nat),
    a2bLoop (urlsafe_b64encode bs) 0 0 0 acc = some (acc ++ bs)
  | [], _, acc => by simp [urlsafe_b64encode, a2bLoop]
  | [a], h, acc => by
    have ha : a < 256 := h a (by simp)
    show a2bLoop [b64Char (a / 4), b64Char (a % 4 * 16), '=', '='] 0 0 0 acc = _
    rw [a2bLoop_data0 _ (by omega), a2bLoop_data1 _ (by omega), a2bLoop_pad2a,
      a2bLoop_pad2b]
    have he : a / 4 * 4 + a % 4 * 16 / 16 = a := by omega
    rw [he]
  | [a, b], h, acc => by
    have ha : a < 256 := h a (by simp)
    have hb : b < 256 := h b (by simp)
    show a2bLoop [b64Char (a / 4), b64Char (a % 4 * 16 + b / 16), b64Char (b % 16 * 4),
      '='] 0 0 0 acc = _
    rw [a2bLoop_data0 _ (by omega), a2bLoop_data1 _ (by omega), a2bLoop_data2 _ (by omega),
      a2bLoop_pad3]
    have h1 : a / 4 * 4 + (a % 4 * 16 + b / 16) / 16 = a := by omega
    have h2 : (a % 4 * 16 + b / 16) % 16 * 16 + b % 16 * 4 / 4 = b := by omega
    rw [h1, h2]
    simp
  | a :: b :: c :: rest, h, acc => by
    have ha : a < 256 := h a (by simp)
    have hb : b < 256 := h b (by simp)
    have hc : c < 256 := h c (by simp)
    show a2bLoop (b64Char (a / 4) :: b64Char (a % 4 * 16 + b / 16) ::
      b64Char (b % 16 * 4 + c / 64) :: b64Char (c % 64) ::
      urlsafe_b64encode rest) 0 0 0 acc = _
    rw [a2bLoop_data0 _ (by omega), a2bLoop_data1 _ (by omega), a2bLoop_data2 _ (by omega),
      a2bLoop_data3 _ (by omega)]
    have h1 : a / 4 * 4 + (a % 4 * 16 + b / 16) / 16 = a := by omega
    have h2 : (a % 4 * 16 + b / 16) % 16 * 16 + (b % 16 * 4 + c / 64) / 4 = b := by omega
    have h3 : (b % 16 * 4 + c / 64) % 4 * 64 + c % 64 = c := by omega
    rw [h1, h2, h3, a2bLoop_encode rest (fun x hx => h x (by simp [hx]))
      (acc ++ [a] ++ [b] ++ [c])]
    simp

/-- The base64 encoding of a byte list is all-ASCII. -/
theorem urlsafe_b64encode_ascii : ∀ (bs : List Nat), (∀ x ∈ bs, x < 256) →
    (urlsafe_b64encode bs).all (fun c => c.toNat < 128) = true
  | [], _ => rfl
  | [a], h => by
    have ha : a < 256 := h a (by simp)
    have h1 := b64Char_spec (a / 4) (by omega)
    have h2 := b64Char_spec (a % 4 * 16) (by omega)
    show ([b64Char (a / 4), b64Char (a % 4 * 16), '=', '='].all
      fun c => c.toNat < 128) = true
    simp [List.all_cons, h1.2.2, h2.2.2]
  | [a, b], h => by
    have ha : a < 256 := h a (by simp)
    have hb : b < 256 := h b (by simp)
    have h1 := b64Char_spec (a / 4) (by omega)
    have h2 := b64Char_spec (a % 4 * 16 + b / 16) (by omega)
    have h3 := b64Char_spec (b % 16 * 4) (by omega)
    show ([b64Char (a / 4), b64Char (a % 4 * 16 + b / 16), b64Char (b % 16 * 4), '='].all
      fun c => c.toNat < 128) = true
    simp [List.all_cons, h1.2.2, h2.2.2, h3.2.2]
  | a :: b :: c :: rest, h => by
    have ha : a < 256 := h a (by simp)
    have hb : b < 256 := h b (by simp)
    have hc : c < 256 := h c (by simp)
    have h1 := b64Char_spec (a / 4) (by omega)
    have h2 := b64Char_spec (a % 4 * 16 + b / 16) (by omega)
    have h3 := b64Char_spec (b % 16 * 4 + c / 64) (by omega)
    have h4 := b64Char_spec (c % 64) (by omega)
    have ih := urlsafe_b64encode_ascii rest (fun x hx => h x (by simp [hx]))
    show ((b64Char (a / 4) :: b64Char (a % 4 * 16 + b / 16) ::
      b64Char (b % 16 * 4 + c / 64) :: b64Char (c % 64) :: urlsafe_b64encode rest).all
      fun c => c.toNat < 128) = true
    simp [List.all_cons, h1.2.2, h2.2.2, h3.2.2, h4.2.2, ih]

/-- `urlsafe_b64decode` inverts `urlsafe_b64encode` on byte lists. -/
theorem urlsafe_b64decode_encode (bs : List Nat) (h : ∀ x ∈ bs, x < 256) :
    urlsafe_b64decode (urlsafe_b64encode bs) = some bs := by
  unfold urlsafe_b64decode
  rw [if_pos (urlsafe_b64encode_ascii bs h), a2bLoop_encode bs h []]
  simp

/-- The code point of a `Char` is valid Unicode scalar value. -/
theorem char_valid_toNat (c : Char) :
    c.toNat < 55296 ∨ (57343 < c.toNat ∧ c.toNat < 1114112) := c.valid

/-- A byte in the continuation range passes `isCont`. -/
theorem isCont_true (b : Nat) (h1 : 128 ≤ b) (h2 : b < 192) : isCont b = true := by
  simp [isCont]
  omega

/-- One decoding step inverts the UTF-8 encoding of one code point. -/
theorem utf8DecodeOne_enc (c : Char) (bs : List Nat) :
    utf8DecodeOne (utf8EncodeChar c ++ bs) = some (c, bs) := by
  have hval := char_valid_toNat c
  by_cases h1 : c.toNat < 128
  · have henc : utf8EncodeChar c = [c.toNat] := by
      rw [utf8EncodeChar, if_pos h1]
    rw [henc, List.cons_append, List.nil_append, utf8DecodeOne]
    rw [if_pos h1, Char.ofNat_toNat]
  · by_cases h2 : c.toNat < 2048
    · have henc : utf8EncodeChar c = [192 + c.toNat / 64, 128 + c.toNat % 64] := by
        rw [utf8EncodeChar, if_neg h1, if_pos h2]
      rw [henc, List.cons_append, List.cons_append, List.nil_append, utf8DecodeOne]
      rw [if_neg (by omega), if_neg (by omega), if_pos (by omega)]
      rw [if_neg]
      · simp only [List.getD_cons_zero, List.drop_one, List.tail_cons]
        rw [show (192 + c.toNat / 64 - 192) * 64 + (128 + c.toNat % 64 - 128) = c.toNat from
          by omega, Char.ofNat_toNat]
      · simp only [List.getD_cons_zero, List.length_cons]
        rw [isCont_true _ (by omega) (by omega)]
        simp
    · by_cases h3 : c.toNat < 65536
      · have henc : utf8EncodeChar c =
            [224 + c.toNat / 4096, 128 + c.toNat / 64 % 64, 128 + c.toNat % 64] := by
          rw [utf8EncodeChar, if_neg h1, if_neg h2, if_pos h3]
        rw [henc, List.cons_append, List.cons_append, List.cons_append, List.nil_append,
          utf8DecodeOne]
        rw [if_neg (by omega), if_neg (by omega), if_neg (by omega), if_pos (by omega)]
        rw [if_neg]
        · simp only [List.getD_cons_zero, List.getD_cons_succ]
          rw [if_neg]
          · rw [show (224 + c.toNat / 4096 - 224) * 4096 + (128 + c.toNat / 64 % 64 - 128) *
              64 + (128 + c.toNat % 64 - 128) = c.toNat from by omega, Char.ofNat_toNat]
            simp
          · rw [show (224 + c.toNat / 4096 - 224) * 4096 + (128 + c.toNat / 64 % 64 - 128) *
              64 + (128 + c.toNat % 64 - 128) = c.toNat from by omega]
            rcases hval with hv | hv
            · omega
            · omega
        · simp only [List.getD_cons_zero, List.getD_cons_succ, List.length_cons]
          rw [isCont_true _ (by omega) (by omega), isCont_true _ (by omega) (by omega)]
          simp
      · have henc : utf8EncodeChar c =
            [240 + c.toNat / 262144, 128 + c.toNat / 4096 % 64, 128 + c.toNat / 64 % 64,
              128 + c.toNat % 64] := by
          rw [utf8EncodeChar, if_neg h1, if_neg h2, if_neg h3]
        have hub : c.toNat < 1114112 := by
          rcases hval with hv | hv
          · omega
          · omega
        rw [henc, List.cons_append, List.cons_append, List.cons_append, List.cons_append,
          List.nil_append, utf8DecodeOne]
        rw [if_neg (by omega), if_neg (by omega), if_neg (by omega), if_neg (by omega),
          if_pos (by omega)]
        rw [if_neg]
        · simp only [List.getD_cons_zero, List.getD_cons_succ]
          rw [if_neg]
          · rw [show (240 + c.toNat / 262144 - 240) * 262144 +
              (128 + c.toNat / 4096 % 64 - 128) * 4096 + (128 + c.toNat / 64 % 64 - 128) *
              64 + (128 + c.toNat % 64 - 128) = c.toNat from by omega, Char.ofNat_toNat]
            simp
          · rw [show (240 + c.toNat / 262144 - 240) * 262144 +
              (128 + c.toNat / 4096 % 64 - 128) * 4096 + (128 + c.toNat / 64 % 64 - 128) *
              64 + (128 + c.toNat % 64 - 128) = c.toNat from by omega]
            omega
        · simp only [List.getD_cons_zero, List.getD_cons_succ, List.length_cons]
          rw [isCont_true _ (by omega) (by omega), isCont_true _ (by omega) (by omega),
            isCont_true _ (by omega) (by omega)]
          simp

/-- UTF-8 encoding of a code point is never empty. -/
theorem utf8EncodeChar_ne_nil (c : Char) : utf8EncodeChar c ≠ [] := by
  unfold utf8EncodeChar
  split
  · simp
  · split
    · simp
    · split
      · simp
      · simp

/-- With enough fuel, the decoding loop inverts the UTF-8 encoding. -/
theorem utf8DecodeLoop_encode : ∀ (s : Str) (fuel : Nat),
    (utf8Encode s).length ≤ fuel → utf8DecodeLoop fuel (utf8Encode s) = some s
  | [], fuel, _ => by
    simp [utf8Encode, utf8DecodeLoop]
  | c :: cs, fuel, hf => by
    have henc : utf8Encode (c :: cs) = utf8EncodeChar c ++ utf8Encode cs := by
      simp [utf8Encode]
    obtain ⟨b0, tail, ht⟩ : ∃ b0 tail, utf8EncodeChar c = b0 :: tail := by
      cases hc : utf8EncodeChar c with
      | nil => exact absurd hc (utf8EncodeChar_ne_nil c)
      | cons b0 tail => exact ⟨b0, tail, rfl⟩
    obtain ⟨f, rfl⟩ : ∃ f, fuel = f + 1 := by
      refine ⟨fuel - 1, ?_⟩
      rw [henc, ht] at hf
      simp only [List.cons_append, List.length_cons] at hf
      omega
    have hcons : utf8Encode (c :: cs) = b0 :: (tail ++ utf8Encode cs) := by
      rw [henc, ht, List.cons_append]
    rw [hcons, utf8DecodeLoop]
    have hone : utf8DecodeOne (b0 :: (tail ++ utf8Encode cs)) = some (c, utf8Encode cs) := by
      rw [← List.cons_append, ← ht]
      exact utf8DecodeOne_enc c (utf8Encode cs)
    rw [hone]
    dsimp only
    rw [utf8DecodeLoop_encode cs f (by
      rw [henc, ht] at hf
      simp only [List.cons_append, List.length_cons, List.length_append] at hf
      omega)]
    rfl

/-- `utf8Decode` inverts `utf8Encode`. -/
theorem utf8Decode_encode (s : Str) : utf8Decode (utf8Encode s) = some s :=
  utf8DecodeLoop_encode s (utf8Encode s).length le_rfl

/-- UTF-8 encoded bytes are bytes. -/
theorem utf8Encode_lt256 (s : Str) : ∀ x ∈ utf8Encode s, x < 256 := by
  induction s with
  | nil => simp [utf8Encode]
  | cons c cs ih =>
    have h : utf8Encode (c :: cs) = utf8EncodeChar c ++ utf8Encode cs := by
      simp [utf8Encode]
    rw [h]
    intro x hx
    rcases List.mem_append.mp hx with hx | hx
    · have hval := char_valid_toNat c
      have hub : c.toNat < 1114112 := by
        rcases hval with hv | hv
        · omega
        · omega
      unfold utf8EncodeChar at hx
      split at hx
      · simp at hx
        omega
      · split at hx
        · simp at hx
          rcases hx with h | h <;> omega
        · split at hx
          · simp at hx
            rcases hx with h | h | h <;> omega
          · simp at hx
            rcases hx with h | h | h | h <;> omega
    · exact ih x hx

/-- C6: `encode_claims` is idempotent: a value that base64url-decodes
without error is returned unchanged (so the output of the encoder,
which always decodes, is a fixed point), and any other input is
base64url-encoded exactly once. -/
theorem encode_claims_idempotent (x : Str) :
    encode_claims (encode_claims x) = encode_claims x ∧
    ((urlsafe_b64decode x).isSome = true → encode_claims x = x) ∧
    (urlsafe_b64decode x = none →
      encode_claims x = urlsafe_b64encode (utf8Encode x)) := by
  refine ⟨?_, ?_, ?_⟩
  · cases hdec : urlsafe_b64decode x with
    | some bs => simp only [encode_claims, hdec]
    | none =>
      have h1 : encode_claims x = urlsafe_b64encode (utf8Encode x) := by
        simp only [encode_claims, hdec]
      rw [h1]
      have h2 := urlsafe_b64decode_encode (utf8Encode x) (utf8Encode_lt256 x)
      simp only [encode_claims, h2]
  · intro hs
    rcases Option.isSome_iff_exists.mp hs with ⟨bs, hbs⟩
    simp only [encode_claims, hbs]
  · intro hdec
    simp only [encode_claims, hdec]

/-- C6 witness: the theorem applied to an already-encoded value (left
unchanged) and to a plain-text value (encoded once). -/
theorem encode_claims_idempotent_witness :
    encode_claims (encode_claims ("claims text".data)) =
      encode_claims ("claims text".data) ∧
    encode_claims ("YWJj".data) = ("YWJj".data) ∧
    encode_claims ("claims text".data) =
      urlsafe_b64encode (utf8Encode ("claims text".data)) := by
  refine ⟨(encode_claims_idempotent ("claims text".data)).1, ?_, ?_⟩
  · exact (encode_claims_idempotent ("YWJj".data)).2.1 (by decide)
  · exact (encode_claims_idempotent ("claims text".data)).2.2 (by decide)

/-- C9: for every string rejected by the base64url decoder (so the
encoder really encodes it), `decode_claims` inverts `encode_claims`;
for strings the decoder accepts the round-trip fails in general, e.g.
`YWJj` is left unchanged by the encoder but decoded to `abc`. -/
theorem decode_encode_claims_roundtrip (x : Str)
    (h : urlsafe_b64decode x = none) :
    decode_claims (encode_claims x) = x ∧
    encode_claims ("YWJj".data) = ("YWJj".data) ∧
    decode_claims (encode_claims ("YWJj".data)) = ("abc".data) ∧
    decode_claims (encode_claims ("YWJj".data)) ≠ ("YWJj".data) := by
  refine ⟨?_, by decide, by decide, by decide⟩
  simp only [encode_claims, h, decode_claims,
    urlsafe_b64decode_encode (utf8Encode x) (utf8Encode_lt256 x),
    utf8Decode_encode x]

/-- C9 witness: the theorem applied to a plain-text claims string. -/
theorem decode_encode_claims_roundtrip_witness :
    decode_claims (encode_claims ("hello claims".data)) = ("hello claims".data) :=
  (decode_encode_claims_roundtrip ("hello claims".data) (by decide)).1
